import Mathlib

/-!
# Verification of the UMD graduation-planner plan-generation engine

Shallow embedding of `src/pages/api/generate-plan.ts` (the degree-plan
generation engine) together with proofs about its behaviour.

Modelling conventions:
* JavaScript numbers used as integers are modelled as `Int`; the `NaN`
  produced by `parseInt` on a non-numeric string is modelled as `none` of
  an `Option Int` (every comparison with `NaN` is false, `NaN + 1 = NaN`).
* The JavaScript value `undefined` read out of an array at an out-of-range
  index is modelled as `none` of `Option String`; interpolating it into a
  template literal yields the string `"undefined"`, interpolating `NaN`
  yields `"NaN"`, exactly as in JavaScript.
* The external UMD course-catalog HTTP API is modelled as an oracle
  `String → FetchOutcome` passed to the engine as a parameter; the engine
  itself is a pure function of the request and that oracle.
* The `while` loop of `generateSemesterSequence` and the regex scan of
  `parsePrerequisites` are written with an explicit fuel argument so that
  every definition evaluates inside the kernel; the fuel chosen at the
  call sites provably dominates the number of iterations the JavaScript
  loop performs (each iteration of the semester loop either advances the
  season index, which wraps after at most three steps, or advances the
  year towards the end year; each step of the regex scan consumes at
  least one character).
-/

/-- JavaScript `s.split(sep)` for a single-character separator:
`"a  b".split(' ') = ["a", "", "b"]`, `"".split(' ') = [""]`. -/
def jsSplitAux (sep : Char) : List Char → List Char → List String
  | [], cur => [String.mk cur.reverse]
  | c :: rest, cur =>
    if c = sep then String.mk cur.reverse :: jsSplitAux sep rest []
    else jsSplitAux sep rest (c :: cur)

def jsSplit (sep : Char) (s : String) : List String :=
  jsSplitAux sep s.data []

/-- JavaScript `s.toLowerCase()` (the engine only feeds it ASCII season
names, for which `Char.toLower` agrees with JavaScript). -/
def toLowerStr (s : String) : String :=
  String.mk (s.data.map Char.toLower)

/-- Decimal digits of a natural number, most significant first.  The fuel
is the number itself plus one, which dominates the digit count. -/
def natToCharsAux : Nat → Nat → List Char → List Char
  | 0, _, acc => acc
  | fuel + 1, n, acc =>
    let d := Char.ofNat (48 + n % 10)
    if n < 10 then d :: acc else natToCharsAux fuel (n / 10) (d :: acc)

def natToChars (n : Nat) : List Char :=
  natToCharsAux (n + 1) n []

/-- The string JavaScript produces when interpolating an integer-valued
number into a template literal. -/
def intToString : Int → String
  | Int.ofNat n => String.mk (natToChars n)
  | Int.negSucc m => String.mk ('-' :: natToChars (m + 1))

def jsIsSpace (c : Char) : Bool :=
  c = ' ' || c = '\t' || c = '\n' || c = '\r' || c = '\x0b' || c = '\x0c'

def digitVal (c : Char) : Nat := c.toNat - 48

def decDigitsVal (cs : List Char) : Nat :=
  cs.foldl (fun acc c => acc * 10 + digitVal c) 0

/-- JavaScript `parseInt` on the decimal strings this API produces and
consumes: skip leading whitespace, optional sign, then the longest prefix
of decimal digits; `none` models the `NaN` returned when that prefix is
empty.  (The `0x` hexadecimal form of `parseInt` never arises here.) -/
def jsParseInt (s : String) : Option Int :=
  let trimmed := s.data.dropWhile jsIsSpace
  let (neg, rest) :=
    match trimmed with
    | '-' :: r => (true, r)
    | '+' :: r => (false, r)
    | r => (false, r)
  let digits := rest.takeWhile Char.isDigit
  if digits = [] then none
  else some (if neg then -(decDigitsVal digits : Int) else (decDigitsVal digits : Int))

/-! ## `parsePrerequisites`: the regex scan `/[A-Z]{4}\s*\d{3}[A-Z]?/g` -/

def isUpperAZ (c : Char) : Bool := 'A' ≤ c && c ≤ 'Z'

/-- Try to match `[A-Z]{4}\s*\d{3}[A-Z]?` at the head of the character
list; on success return the matched characters and the remainder.  The
regex needs no backtracking: `\s` and `\d` are disjoint and nothing
follows the optional trailing letter. -/
def matchCourseCode (cs : List Char) : Option (List Char × List Char) :=
  match cs with
  | c1 :: c2 :: c3 :: c4 :: rest =>
    if isUpperAZ c1 && isUpperAZ c2 && isUpperAZ c3 && isUpperAZ c4 then
      let ws := rest.takeWhile jsIsSpace
      let afterWs := rest.dropWhile jsIsSpace
      match afterWs with
      | d1 :: d2 :: d3 :: rest2 =>
        if d1.isDigit && d2.isDigit && d3.isDigit then
          match rest2 with
          | c5 :: rest3 =>
            if isUpperAZ c5 then
              some ([c1, c2, c3, c4] ++ ws ++ [d1, d2, d3, c5], rest3)
            else
              some ([c1, c2, c3, c4] ++ ws ++ [d1, d2, d3], rest2)
          | [] => some ([c1, c2, c3, c4] ++ ws ++ [d1, d2, d3], [])
        else none
      | _ => none
    else none
  | _ => none

/-- Global regex scan: at each position try to match; on success continue
after the match, otherwise advance one character.  Fuel dominates the
input length since every step consumes at least one character. -/
def scanCourseCodes : Nat → List Char → List (List Char)
  | 0, _ => []
  | _ + 1, [] => []
  | fuel + 1, c :: rest =>
    match matchCourseCode (c :: rest) with
    | some (m, rest2) => m :: scanCourseCodes fuel rest2
    | none => scanCourseCodes fuel rest

/-- `parsePrerequisites` from the source: extract course codes from a
prerequisite string and strip whitespace from each match
(`.replace(/\s+/g, '')`). -/
def parsePrerequisites (prereqString : String) : List String :=
  if prereqString = "" then []
  else
    (scanCourseCodes (prereqString.data.length + 1) prereqString.data).map
      (fun m => String.mk (m.filter (fun c => !jsIsSpace c)))

/-! ## Data model (the TypeScript interfaces of `generate-plan.ts`) -/

/-- `CompletedCourse` (the engine reads only `course_id` and `credits`;
the optional `grade`/`semester`/`source` fields are never consulted). -/
structure CompletedCourse where
  course_id : String
  credits : Int
deriving Repr, DecidableEq

/-- One requirement category, an element of a major's or minor's
`requirements` array.  `courses = none` models a JavaScript object whose
`courses` property is absent (`undefined`), which the source code guards
with `req.courses?` / `!req.courses` / `req.courses || []`. -/
structure Requirement where
  category : String
  courses : Option (List String)
deriving Repr, DecidableEq

structure Major where
  code : String
  name : String
  requirements : List Requirement
deriving Repr, DecidableEq

structure Minor where
  code : String
  name : String
  requirements : List Requirement
deriving Repr, DecidableEq

/-- `GeneratePlanRequest`.  A missing `minors` field is the empty list
(the source destructures with default `minors = []`); a missing `majors`
field is likewise modelled by the empty list, which the handler rejects
the same way. -/
structure GeneratePlanRequest where
  majors : List Major
  minors : List Minor
  completedCourses : List CompletedCourse
  startingSemester : String
  graduationTarget : String
  maxCreditsPerSemester : Int
deriving Repr, DecidableEq

/-- The value `courseInfo[courseId]` built by `fetchCourseInformation`. -/
structure CourseRecord where
  course_id : String
  name : String
  credits : Int
  prerequisites : List String
  description : String
deriving Repr, DecidableEq

/-- The course object found in the catalog API's JSON array.  Fields are
`Option`s because the JSON object may lack them; `relPrereqs` stands for
`course.relationships?.prereqs`. -/
structure ApiCourse where
  name : Option String
  credits : Option String
  relPrereqs : Option String
  description : Option String
deriving Repr, DecidableEq

/-- Outcome of `fetch` + `response.json()` for one course identifier.
`netError` covers a thrown exception (network failure or JSON parse
failure) — the source's `catch` branch; `respNotOk` is `response.ok`
false; `okJson none` is a successful response whose JSON is not an
array; `okJson (some l)` is a successful response with JSON array `l`. -/
inductive FetchOutcome where
  | netError
  | respNotOk
  | okJson (data : Option (List ApiCourse))
deriving Repr, DecidableEq

/-- A semester as parsed by `parseSemester`: the season is always a
string (possibly garbage), the year is `none` when `parseInt` gave NaN. -/
structure ParsedSem where
  season : String
  year : Option Int
deriving Repr, DecidableEq

/-- A semester as produced by `generateSemesterSequence`:
`season = none` models pushing `seasons[-1] = undefined` (unknown start
season), `year = none` models a NaN year. -/
structure OutSem where
  season : Option String
  year : Option Int
deriving Repr, DecidableEq

/-- The course objects accumulated by `planCourseSequence` (the planned
course plus its `plannedSemester` tag). -/
structure SequencedCourse where
  course_id : String
  name : String
  credits : Int
  prerequisites : List String
  satisfies : List String
  plannedSemester : String
deriving Repr, DecidableEq

/-- `PlannedCourse` as it appears inside a `SemesterPlan`. -/
structure PlannedCourse where
  course_id : String
  name : String
  credits : Int
  prerequisites : List String
  satisfies : List String
deriving Repr, DecidableEq

structure SemesterPlan where
  semester : Option String
  year : Option Int
  courses : List PlannedCourse
  totalCredits : Int
deriving Repr, DecidableEq

/-- `GraduationPlan` (the optional `student_id` field is never set by the
engine and is omitted). -/
structure GraduationPlan where
  majors : List Major
  minors : List Minor
  semesters : List SemesterPlan
  totalCredits : Int
  completionDate : String
  warnings : List String
  unmetRequirements : List String
deriving Repr, DecidableEq

/-! ## `parseSemester` and `generateSemesterSequence` -/

/-- `parseSemester`: split on a space, lowercase the season, `parseInt`
the year (NaN when the year part is missing or non-numeric). -/
def parseSemester (semesterString : String) : ParsedSem :=
  let parts := jsSplit ' ' semesterString
  { season := toLowerStr (parts.headD "")
    year := match parts[1]? with
            | none => none
            | some yearStr => jsParseInt yearStr }

/-- `['spring', 'summer', 'fall'].indexOf(s)` (a JavaScript number, `-1`
when absent). -/
def jsIndexOf (s : String) : Int :=
  if s = "spring" then 0 else if s = "summer" then 1 else if s = "fall" then 2 else -1

/-- `['spring', 'summer', 'fall'][i]`; out-of-range yields `undefined`. -/
def seasonAt (i : Int) : Option String :=
  if i = 0 then some "spring"
  else if i = 1 then some "summer"
  else if i = 2 then some "fall"
  else none

/-- `currentYear < end.year` on JavaScript numbers (false when either is
NaN). -/
def jsLtOpt : Option Int → Option Int → Bool
  | some a, some b => decide (a < b)
  | _, _ => false

/-- `currentYear === end.year` on JavaScript numbers (false for NaN). -/
def jsEqOpt : Option Int → Option Int → Bool
  | some a, some b => decide (a = b)
  | _, _ => false

/-- `currentYear++` (NaN stays NaN). -/
def optSucc : Option Int → Option Int :=
  Option.map (· + 1)

/-- The body of the `while` loop of `generateSemesterSequence`, with
explicit fuel (see the module comment: the fuel chosen below strictly
dominates the number of iterations, which is bounded because each
iteration either increases the season index, wrapping to a new year
after at most three pushes, or the loop condition fails). -/
def semGo (ey : Option Int) (eIdx : Int) : Nat → Option Int → Int → List OutSem
  | 0, _, _ => []
  | fuel + 1, cy, i =>
    if jsLtOpt cy ey || (jsEqOpt cy ey && decide (i ≤ eIdx)) then
      { season := seasonAt i, year := cy } ::
        (if i + 1 ≥ 3 then semGo ey eIdx fuel (optSucc cy) 0
         else semGo ey eIdx fuel cy (i + 1))
    else []

/-- Fuel bound: `3 * (end.year + 1 - start.year) + 4` iterations always
suffice (at most four pushes in the first year when the start season is
unknown, three in every later year, none once the year passes the end
year; when either year is NaN the loop body never runs). -/
def semFuel (sy ey : Option Int) : Nat :=
  (match sy, ey with
   | some y, some z => (3 * (z + 1 - y)).toNat
   | _, _ => 0) + 4

/-- `generateSemesterSequence` from the source. -/
def generateSemesterSequence (start «end» : ParsedSem) : List OutSem :=
  semGo «end».year (jsIndexOf «end».season) (semFuel start.year «end».year)
    start.year (jsIndexOf start.season)

/-- The template literal `` `${sem.season} ${sem.year}` ``. -/
def jsShowSeason : Option String → String
  | none => "undefined"
  | some s => s

def jsShowYear : Option Int → String
  | none => "NaN"
  | some y => intToString y

def semKeyOf (sem : OutSem) : String :=
  jsShowSeason sem.season ++ " " ++ jsShowYear sem.year

/-! ## `checkSatisfiedRequirements` and `fetchCourseInformation` -/

/-- `checkSatisfiedRequirements`: a category is pushed when every listed
course is completed and the list is non-empty. -/
def checkSatisfiedRequirements (requirements : List Requirement)
    (completedCourses : List CompletedCourse) : List String :=
  let completedCourseIds := completedCourses.map (·.course_id)
  requirements.filterMap (fun req =>
    let requiredCourses := req.courses.getD []
    if requiredCourses.all (fun c => completedCourseIds.contains c) ∧ requiredCourses ≠ []
    then some req.category else none)

/-- The filter on line 126 of the source: drop every requirement whose
`category` label occurs in the satisfied-label list. -/
def remainingRequirements (allRequirements : List Requirement)
    (completedCourses : List CompletedCourse) : List Requirement :=
  let satisfied := checkSatisfiedRequirements allRequirements completedCourses
  allRequirements.filter (fun req => !satisfied.contains req.category)

/-- The stub record built in the `catch` branch of
`fetchCourseInformation`. -/
def stubRecord (courseId : String) : CourseRecord :=
  { course_id := courseId, name := courseId, credits := 3, prerequisites := [], description := "" }

/-- The entry `fetchCourseInformation` stores for one identifier: a stub
when the fetch (or JSON decoding) throws; the parsed first array element
when the response is ok and a non-empty array; otherwise no entry at
all.  `parseInt(course.credits) || 3` maps NaN and 0 to 3;
`course.name || courseId` maps a missing or empty name to the id. -/
def resolveEntry (oracle : String → FetchOutcome) (courseId : String) : Option CourseRecord :=
  match oracle courseId with
  | .netError => some (stubRecord courseId)
  | .respNotOk => none
  | .okJson none => none
  | .okJson (some []) => none
  | .okJson (some (course :: _)) =>
    some { course_id := courseId
           name := match course.name with
                   | none => courseId
                   | some "" => courseId
                   | some n => n
           credits := match course.credits with
                      | none => 3
                      | some s => match jsParseInt s with
                                  | none => 3
                                  | some 0 => 3
                                  | some n => n
           prerequisites := parsePrerequisites ((course.relPrereqs).getD "")
           description := (course.description).getD "" }

/-- `fetchCourseInformation`: the `courseInfo` object, as an association
list keyed by course identifier. -/
def fetchCourseInformation (courseIds : List String)
    (oracle : String → FetchOutcome) : List (String × CourseRecord) :=
  courseIds.filterMap (fun courseId => (resolveEntry oracle courseId).map (courseId, ·))

/-! ## `planCourseSequence` -/

/-- The mutable state of `planCourseSequence`: the `completed` set, the
running `currentCredits` of the semester in progress, and the
`plannedCourses` accumulator. -/
structure PlacerState where
  completed : List String
  credits : Int
  planned : List SequencedCourse
deriving Repr, DecidableEq

/-- The inner `for (const courseId of req.courses)` loop for one
requirement category within one semester: skip completed courses,
`break` (return) once the running credits reach the cap, skip
identifiers absent from `courseInfo`, and place a course whose
prerequisites are all completed, growing `completed` immediately. -/
def placeCourses (courseInfo : String → Option CourseRecord) (cap : Int)
    (semesterKey : String) (category : String) :
    List String → PlacerState → PlacerState
  | [], st => st
  | courseId :: rest, st =>
    if st.completed.contains courseId then
      placeCourses courseInfo cap semesterKey category rest st
    else if st.credits ≥ cap then st
    else match courseInfo courseId with
      | none => placeCourses courseInfo cap semesterKey category rest st
      | some course =>
        if course.prerequisites.all (fun p => st.completed.contains p) then
          placeCourses courseInfo cap semesterKey category rest
            { completed := courseId :: st.completed
              credits := st.credits + course.credits
              planned := st.planned ++
                [{ course_id := courseId, name := course.name, credits := course.credits
                   prerequisites := course.prerequisites, satisfies := [category]
                   plannedSemester := semesterKey }] }
        else placeCourses courseInfo cap semesterKey category rest st

/-- The middle `for (const req of requirements)` loop: a requirement
with no `courses` field is skipped. -/
def placeReqs (courseInfo : String → Option CourseRecord) (cap : Int)
    (semesterKey : String) : List Requirement → PlacerState → PlacerState
  | [], st => st
  | req :: rest, st =>
    match req.courses with
    | none => placeReqs courseInfo cap semesterKey rest st
    | some cs =>
      placeReqs courseInfo cap semesterKey rest
        (placeCourses courseInfo cap semesterKey req.category cs st)

/-- The outer `for (const semester of availableSemesters)` loop:
`currentCredits` resets to 0 for each semester, `completed` and the
accumulated plan carry over. -/
def planLoop (requirements : List Requirement)
    (courseInfo : String → Option CourseRecord) (cap : Int) :
    List OutSem → List String → List SequencedCourse → List SequencedCourse
  | [], _, planned => planned
  | sem :: rest, completed, planned =>
    let st := placeReqs courseInfo cap (semKeyOf sem) requirements
      { completed := completed, credits := 0, planned := planned }
    planLoop requirements courseInfo cap rest st.completed st.planned

/-- `planCourseSequence` from the source. -/
def planCourseSequence (requirements : List Requirement)
    (courseInfo : String → Option CourseRecord) (completedCourses : List String)
    (availableSemesters : List OutSem) (maxCreditsPerSemester : Int) :
    List SequencedCourse :=
  planLoop requirements courseInfo maxCreditsPerSemester availableSemesters
    completedCourses []

/-! ## Warnings, unmet requirements, and plan assembly -/

/-- `generateWarnings` (advisory strings; over-cap and under-12 checks). -/
def generateWarnings (semesters : List SemesterPlan) (maxCreditsPerSemester : Int) :
    List String :=
  semesters.flatMap (fun sem =>
    (if sem.totalCredits > maxCreditsPerSemester then
      [jsShowSeason sem.semester ++ " " ++ jsShowYear sem.year ++
        ": Overloaded with " ++ intToString sem.totalCredits ++ " credits"]
     else []) ++
    (if sem.totalCredits < 12 ∧ sem.courses ≠ [] then
      [jsShowSeason sem.semester ++ " " ++ jsShowYear sem.year ++
        ": Under full-time status with " ++ intToString sem.totalCredits ++ " credits"]
     else []))

/-- `findUnmetRequirements`: a category (with a present `courses` field)
is unmet when none of its courses occur among the *planned* course ids;
the completed-course set is not consulted. -/
def findUnmetRequirements (allRequirements : List Requirement)
    (plannedCourses : List SequencedCourse) : List String :=
  let plannedCourseIds := plannedCourses.map (·.course_id)
  allRequirements.filterMap (fun req =>
    match req.courses with
    | none => none
    | some cs => if cs.any (fun c => plannedCourseIds.contains c) then none
                 else some req.category)

/-- Lines 119–122: majors' requirement categories followed by minors'. -/
def allRequirementsOf (r : GeneratePlanRequest) : List Requirement :=
  r.majors.flatMap (·.requirements) ++ r.minors.flatMap (·.requirements)

def remainingRequirementsOf (r : GeneratePlanRequest) : List Requirement :=
  remainingRequirements (allRequirementsOf r) r.completedCourses

/-- Lines 129–132: the `Set` of all course ids of the remaining
requirements, in insertion order (`eraseDups` keeps first occurrences,
matching `Set.add`). -/
def requiredCourseIdsOf (r : GeneratePlanRequest) : List String :=
  ((remainingRequirementsOf r).flatMap (fun req => req.courses.getD [])).eraseDups

def courseInfoOf (r : GeneratePlanRequest) (oracle : String → FetchOutcome) :
    List (String × CourseRecord) :=
  fetchCourseInformation (requiredCourseIdsOf r) oracle

def availableSemestersOf (r : GeneratePlanRequest) : List OutSem :=
  generateSemesterSequence (parseSemester r.startingSemester)
    (parseSemester r.graduationTarget)

def courseSequenceOf (r : GeneratePlanRequest) (oracle : String → FetchOutcome) :
    List SequencedCourse :=
  planCourseSequence (remainingRequirementsOf r)
    (fun courseId => (courseInfoOf r oracle).lookup courseId)
    (r.completedCourses.map (·.course_id))
    (availableSemestersOf r) r.maxCreditsPerSemester

/-- Lines 146–159: one `SemesterPlan` per available semester, its courses
the planned courses whose `plannedSemester` tag equals the semester's
key, `totalCredits` initially 0. -/
def buildSemesterPlans (availableSemesters : List OutSem)
    (courseSequence : List SequencedCourse) : List SemesterPlan :=
  availableSemesters.map (fun sem =>
    { semester := sem.season, year := sem.year
      courses := (courseSequence.filter
          (fun c => c.plannedSemester == semKeyOf sem)).map
        (fun c => { course_id := c.course_id, name := c.name, credits := c.credits
                    prerequisites := c.prerequisites, satisfies := c.satisfies })
      totalCredits := 0 })

/-- Lines 162–164: fill in each semester's credit total. -/
def setSemesterTotals (semesters : List SemesterPlan) : List SemesterPlan :=
  semesters.map (fun sem => { sem with totalCredits := (sem.courses.map (·.credits)).sum })

/-- `generateGraduationPlan` from the source (the `await`ed catalog fetch
is supplied through the oracle). -/
def generateGraduationPlan (r : GeneratePlanRequest)
    (oracle : String → FetchOutcome) : GraduationPlan :=
  let courseSequence := courseSequenceOf r oracle
  let semesters := setSemesterTotals
    (buildSemesterPlans (availableSemestersOf r) courseSequence)
  { majors := r.majors
    minors := r.minors
    semesters := semesters.filter (fun sem => decide (0 < sem.courses.length))
    totalCredits := (semesters.map (·.totalCredits)).sum +
      (r.completedCourses.map (·.credits)).sum
    completionDate := r.graduationTarget
    warnings := generateWarnings semesters r.maxCreditsPerSemester
    unmetRequirements := findUnmetRequirements (allRequirementsOf r) courseSequence }

/-- The request-validation and dispatch logic of the POST handler: the
only caller-visible validation is the empty/missing majors check; the
`try`/`catch` around `generateGraduationPlan` never fires because the
engine (with the catalog fetch modelled by the oracle) is total. -/
def handlerModel (r : GeneratePlanRequest) (oracle : String → FetchOutcome) :
    Except String GraduationPlan :=
  if r.majors = [] then Except.error "At least one major is required"
  else Except.ok (generateGraduationPlan r oracle)

/-! ## The specification's semester walk (for the sequencer refinement) -/

/-- Modelled from the spec: the ordered cyclic spring→summer→fall walk of
`n` terms starting at season index `sIdx` of year `startYear` — term `k`
of the walk lies `k` cyclic steps after the start, and the walk from a
start through a target inclusive of both ends has
`3·(targetYear − startYear) + targetIdx − startIdx + 1` terms. -/
def specTermWalk (sIdx : Nat) (startYear : Int) (n : Nat) : List OutSem :=
  (List.range n).map (fun k =>
    { season := seasonAt (((sIdx + k) % 3 : Nat) : Int)
      year := some (startYear + (((sIdx + k) / 3 : Nat) : Int)) })

lemma specTermWalk_cons_le_one (s : Nat) (hs : s ≤ 1) (y : Int) (m : Nat) :
    specTermWalk s y (m + 1) =
      { season := seasonAt (s : Int), year := some y } :: specTermWalk (s + 1) y m := by
  unfold specTermWalk
  rw [List.range_succ_eq_map]
  simp only [List.map_cons, List.map_map, List.cons.injEq]
  refine ⟨?_, ?_⟩
  · simp only [OutSem.mk.injEq, Option.some.injEq]
    refine ⟨?_, ?_⟩
    · congr 1
      omega
    · omega
  · apply List.map_congr_left
    intro k _
    simp only [Function.comp_apply, OutSem.mk.injEq, Option.some.injEq]
    refine ⟨?_, ?_⟩
    · congr 1
      omega
    · omega

lemma specTermWalk_cons_two (y : Int) (m : Nat) :
    specTermWalk 2 y (m + 1) =
      { season := seasonAt 2, year := some y } :: specTermWalk 0 (y + 1) m := by
  unfold specTermWalk
  rw [List.range_succ_eq_map]
  simp only [List.map_cons, List.map_map, List.cons.injEq]
  refine ⟨?_, ?_⟩
  · simp only [OutSem.mk.injEq, Option.some.injEq]
    refine ⟨?_, ?_⟩
    · congr 1
    · omega
  · apply List.map_congr_left
    intro k _
    simp only [Function.comp_apply, OutSem.mk.injEq, Option.some.injEq]
    refine ⟨?_, ?_⟩
    · congr 1
      omega
    · omega

lemma jsIndexOf_le_two (s : String) : jsIndexOf s ≤ 2 := by
  unfold jsIndexOf
  split_ifs <;> omega

/-- The fueled `while` loop agrees with the spec walk whenever the season
indices are genuine (in `{0, 1, 2}`) and the fuel dominates the walk
length. -/
lemma semGo_eq_walk (z eIdx : Int) (he0 : 0 ≤ eIdx) (he2 : eIdx ≤ 2) :
    ∀ (fuel : Nat) (y i : Int), 0 ≤ i → i ≤ 2 →
      (3 * (z - y) + eIdx - i + 1).toNat ≤ fuel →
      semGo (some z) eIdx fuel (some y) i =
        specTermWalk i.toNat y (3 * (z - y) + eIdx - i + 1).toNat := by
  intro fuel
  induction fuel with
  | zero =>
    intro y i hi0 hi2 hle
    have h0 : (3 * (z - y) + eIdx - i + 1).toNat = 0 := Nat.le_zero.mp hle
    rw [h0]
    simp [semGo, specTermWalk]
  | succ fuel ih =>
    intro y i hi0 hi2 hle
    simp only [semGo, jsLtOpt, jsEqOpt]
    by_cases hcond : y < z ∨ (y = z ∧ i ≤ eIdx)
    · have hb : (decide (y < z) || (decide (y = z) && decide (i ≤ eIdx))) = true := by
        simp only [Bool.or_eq_true, Bool.and_eq_true, decide_eq_true_eq]
        tauto
      rw [if_pos hb]
      obtain ⟨m, hm⟩ : ∃ m, (3 * (z - y) + eIdx - i + 1).toNat = m + 1 :=
        ⟨(3 * (z - y) + eIdx - i + 1).toNat - 1, by omega⟩
      rw [hm]
      by_cases hwrap : i + 1 ≥ 3
      · have hi : i = 2 := by omega
        subst hi
        rw [if_pos hwrap]
        have h2 : (2 : Int).toNat = 2 := rfl
        rw [h2, specTermWalk_cons_two]
        simp only [optSucc, Option.map_some']
        congr 1
        have hih := ih (y + 1) 0 (by omega) (by omega) (by omega)
        have e1 : (0 : Int).toNat = 0 := rfl
        have e2 : (3 * (z - (y + 1)) + eIdx - 0 + 1).toNat = m := by omega
        rw [e1, e2] at hih
        exact hih
      · rw [if_neg hwrap]
        have hs : i.toNat ≤ 1 := by omega
        rw [specTermWalk_cons_le_one i.toNat hs y m]
        have hcast : ((i.toNat : Int)) = i := by omega
        rw [hcast]
        congr 1
        have hih := ih y (i + 1) (by omega) (by omega) (by omega)
        have e1 : (i + 1).toNat = i.toNat + 1 := by omega
        have e2 : (3 * (z - y) + eIdx - (i + 1) + 1).toNat = m := by omega
        rw [e1, e2] at hih
        exact hih
    · have hb : ¬ ((decide (y < z) || (decide (y = z) && decide (i ≤ eIdx))) = true) := by
        simp only [Bool.or_eq_true, Bool.and_eq_true, decide_eq_true_eq]
        tauto
      rw [if_neg hb]
      have h0 : (3 * (z - y) + eIdx - i + 1).toNat = 0 := by omega
      rw [h0]
      simp [specTermWalk]

/-- C6: for every valid (start, target) pair with start not after target,
the semester sequencer returns exactly the ordered cyclic
spring→summer→fall walk from start through target, inclusive of both
ends and nothing more. -/
theorem c6_sequencer_walk (ss ts : String) (sy ty : Int)
    (hss : 0 ≤ jsIndexOf ss) (hts : 0 ≤ jsIndexOf ts)
    (horder : sy < ty ∨ (sy = ty ∧ jsIndexOf ss ≤ jsIndexOf ts)) :
    generateSemesterSequence { season := ss, year := some sy }
        { season := ts, year := some ty } =
      specTermWalk (jsIndexOf ss).toNat sy
        (3 * (ty - sy) + jsIndexOf ts - jsIndexOf ss + 1).toNat := by
  have hss2 := jsIndexOf_le_two ss
  have hts2 := jsIndexOf_le_two ts
  unfold generateSemesterSequence semFuel
  refine semGo_eq_walk ty (jsIndexOf ts) hts hts2 _ sy (jsIndexOf ss) hss hss2 ?_
  show (3 * (ty - sy) + jsIndexOf ts - jsIndexOf ss + 1).toNat ≤ (3 * (ty + 1 - sy)).toNat + 4
  omega

/-- C6 witness: start=(fall,2024), target=(spring,2026) yields the
literal ordered five-term list fall 2024, spring 2025, summer 2025,
fall 2025, spring 2026 — and terminates there (no summer 2026). -/
theorem c6_sequencer_walk_witness :
    (0 : Int) ≤ jsIndexOf "fall" ∧ (0 : Int) ≤ jsIndexOf "spring" ∧
    ((2024 : Int) < 2026 ∨ ((2024 : Int) = 2026 ∧ jsIndexOf "fall" ≤ jsIndexOf "spring")) ∧
    generateSemesterSequence { season := "fall", year := some 2024 }
        { season := "spring", year := some 2026 } =
      [{ season := some "fall", year := some 2024 },
       { season := some "spring", year := some 2025 },
       { season := some "summer", year := some 2025 },
       { season := some "fall", year := some 2025 },
       { season := some "spring", year := some 2026 }] := by
  refine ⟨by decide, by decide, by decide, ?_⟩
  rw [c6_sequencer_walk "fall" "spring" 2024 2026 (by decide) (by decide) (by decide)]
  decide

/-! ## Invariants of `planCourseSequence` -/

/-- The master invariant of the greedy placer: planned course ids are
pairwise distinct; the running `completed` set is exactly the initial
completed set plus the planned ids; no planned id lies in the initial
completed set; every planned course has a resolvable `courseInfo` entry;
and every planned course's `satisfies` list is the singleton label of
some requirement of `R` that lists the course. -/
def PlacerInv (courseInfo : String → Option CourseRecord) (init : List String)
    (R : List Requirement) (completed : List String)
    (planned : List SequencedCourse) : Prop :=
  (planned.map (·.course_id)).Nodup ∧
  (∀ x, x ∈ completed ↔ (x ∈ init ∨ x ∈ planned.map (·.course_id))) ∧
  (∀ x ∈ planned.map (·.course_id), x ∉ init) ∧
  (∀ p ∈ planned, (courseInfo p.course_id).isSome) ∧
  (∀ p ∈ planned, ∃ req ∈ R, p.satisfies = [req.category] ∧
    p.course_id ∈ req.courses.getD [])

lemma placeCourses_inv (courseInfo : String → Option CourseRecord) (cap : Int)
    (semesterKey : String) (init : List String) (R : List Requirement)
    (req : Requirement) (hreq : req ∈ R) :
    ∀ (cs : List String) (st : PlacerState),
      (∀ x ∈ cs, x ∈ req.courses.getD []) →
      PlacerInv courseInfo init R st.completed st.planned →
      PlacerInv courseInfo init R
        (placeCourses courseInfo cap semesterKey req.category cs st).completed
        (placeCourses courseInfo cap semesterKey req.category cs st).planned := by
  intro cs
  induction cs with
  | nil => intro st _ hinv; simpa [placeCourses] using hinv
  | cons c rest ih =>
    intro st hsub hinv
    obtain ⟨hnd, hiff, hdisj, hsome, hsat⟩ := hinv
    simp only [placeCourses]
    by_cases hc : st.completed.contains c
    · rw [if_pos hc]
      exact ih st (fun x hx => hsub x (List.mem_cons_of_mem c hx)) ⟨hnd, hiff, hdisj, hsome, hsat⟩
    · rw [if_neg hc]
      by_cases hcap : st.credits ≥ cap
      · rw [if_pos hcap]
        exact ⟨hnd, hiff, hdisj, hsome, hsat⟩
      · rw [if_neg hcap]
        cases hci : courseInfo c with
        | none =>
          exact ih st (fun x hx => hsub x (List.mem_cons_of_mem c hx))
            ⟨hnd, hiff, hdisj, hsome, hsat⟩
        | some course =>
          dsimp only
          by_cases hpre : course.prerequisites.all (fun p => st.completed.contains p)
          · rw [if_pos hpre]
            apply ih _ (fun x hx => hsub x (List.mem_cons_of_mem c hx))
            have hcnot : c ∉ st.completed := by
              intro hmem
              exact hc (List.elem_iff.mpr hmem)
            have hcinit : c ∉ init := fun hin => hcnot ((hiff c).mpr (Or.inl hin))
            have hcplanned : c ∉ st.planned.map (·.course_id) :=
              fun hin => hcnot ((hiff c).mpr (Or.inr hin))
            refine ⟨?_, ?_, ?_, ?_, ?_⟩
            · simp only [List.map_append, List.map_cons, List.map_nil]
              rw [List.nodup_append]
              exact ⟨hnd, List.nodup_singleton c, by simpa using hcplanned⟩
            · intro x
              simp only [List.mem_cons, List.map_append, List.map_cons, List.map_nil,
                List.mem_append, List.mem_singleton, List.not_mem_nil, or_false]
              have hx := hiff x
              tauto
            · intro x hx
              simp only [List.map_append, List.map_cons, List.map_nil, List.mem_append,
                List.mem_singleton, List.not_mem_nil, or_false] at hx
              rcases hx with h | rfl
              · exact hdisj x h
              · exact hcinit
            · intro p hp
              rcases List.mem_append.mp hp with h | h
              · exact hsome p h
              · simp only [List.mem_singleton] at h
                subst h
                simp [hci]
            · intro p hp
              rcases List.mem_append.mp hp with h | h
              · exact hsat p h
              · simp only [List.mem_singleton] at h
                subst h
                exact ⟨req, hreq, rfl, hsub c (List.mem_cons_self c rest)⟩
          · rw [if_neg hpre]
            exact ih st (fun x hx => hsub x (List.mem_cons_of_mem c hx))
              ⟨hnd, hiff, hdisj, hsome, hsat⟩

lemma placeReqs_inv (courseInfo : String → Option CourseRecord) (cap : Int)
    (semesterKey : String) (init : List String) (R : List Requirement) :
    ∀ (rs : List Requirement) (st : PlacerState),
      (∀ r ∈ rs, r ∈ R) →
      PlacerInv courseInfo init R st.completed st.planned →
      PlacerInv courseInfo init R
        (placeReqs courseInfo cap semesterKey rs st).completed
        (placeReqs courseInfo cap semesterKey rs st).planned := by
  intro rs
  induction rs with
  | nil => intro st _ hinv; simpa [placeReqs] using hinv
  | cons req rest ih =>
    intro st hsub hinv
    simp only [placeReqs]
    cases hcs : req.courses with
    | none => exact ih st (fun r hr => hsub r (List.mem_cons_of_mem req hr)) hinv
    | some cs =>
      apply ih _ (fun r hr => hsub r (List.mem_cons_of_mem req hr))
      apply placeCourses_inv courseInfo cap semesterKey init R req
        (hsub req (List.mem_cons_self req rest)) cs st
      · intro x hx
        rw [hcs]
        simpa using hx
      · exact hinv

lemma planLoop_inv (requirements : List Requirement)
    (courseInfo : String → Option CourseRecord) (cap : Int) (init : List String) :
    ∀ (sems : List OutSem) (completed : List String) (planned : List SequencedCourse),
      PlacerInv courseInfo init requirements completed planned →
      ∃ completedFinal,
        PlacerInv courseInfo init requirements completedFinal
          (planLoop requirements courseInfo cap sems completed planned) := by
  intro sems
  induction sems with
  | nil => intro completed planned hinv; exact ⟨completed, by simpa [planLoop] using hinv⟩
  | cons sem rest ih =>
    intro completed planned hinv
    simp only [planLoop]
    apply ih
    exact placeReqs_inv courseInfo cap (semKeyOf sem) init requirements
      requirements { completed := completed, credits := 0, planned := planned }
      (fun r hr => hr) hinv

lemma planCourseSequence_inv (requirements : List Requirement)
    (courseInfo : String → Option CourseRecord) (completedCourses : List String)
    (availableSemesters : List OutSem) (cap : Int) :
    ∃ completedFinal,
      PlacerInv courseInfo completedCourses requirements completedFinal
        (planCourseSequence requirements courseInfo completedCourses
          availableSemesters cap) := by
  apply planLoop_inv
  refine ⟨by simp, ?_, ?_, ?_, ?_⟩ <;> simp

/-- C9: within one generation, a course identifier appears at most once
across the initial completed set and all placed courses: the placed ids
are pairwise distinct (no course in two terms, none twice in one term)
and none of them is an initially completed course. -/
theorem c9_at_most_once (r : GeneratePlanRequest) (oracle : String → FetchOutcome) :
    ((courseSequenceOf r oracle).map (·.course_id)).Nodup ∧
    ∀ p ∈ courseSequenceOf r oracle,
      p.course_id ∉ r.completedCourses.map (·.course_id) := by
  obtain ⟨cf, hnd, hiff, hdisj, hsome, hsat⟩ :=
    planCourseSequence_inv (remainingRequirementsOf r)
      (fun courseId => (courseInfoOf r oracle).lookup courseId)
      (r.completedCourses.map (·.course_id))
      (availableSemestersOf r) r.maxCreditsPerSemester
  refine ⟨hnd, ?_⟩
  intro p hp
  exact hdisj p.course_id (List.mem_map_of_mem _ hp)

def c9req : GeneratePlanRequest :=
  { majors := [{ code := "M", name := "M",
                 requirements := [{ category := "core", courses := some ["MATH140", "MATH141"] }] }]
    minors := [], completedCourses := [{ course_id := "MATH140", credits := 4 }]
    startingSemester := "Fall 2024", graduationTarget := "Fall 2024"
    maxCreditsPerSemester := 15 }

/-- C9 witness: on a concrete request whose requirement lists an already
completed course, only the other course is placed, placed ids are
distinct and disjoint from the completed set. -/
theorem c9_at_most_once_witness :
    ({ course_id := "MATH141", name := "MATH141", credits := 3, prerequisites := []
       satisfies := ["core"], plannedSemester := "fall 2024" } : SequencedCourse) ∈
        courseSequenceOf c9req (fun _ => FetchOutcome.netError) ∧
    ("MATH141" : String) ∉ c9req.completedCourses.map (·.course_id) :=
  ⟨by decide,
   (c9_at_most_once c9req (fun _ => FetchOutcome.netError)).2
     { course_id := "MATH141", name := "MATH141", credits := 3, prerequisites := []
       satisfies := ["core"], plannedSemester := "fall 2024" } (by decide)⟩

/-- C10 (amended): every placed course's `satisfies` list is a singleton
holding the label of the requirement category whose iteration placed it —
some category of the remaining-requirement list that lists the course,
though not necessarily the first such category in declared order. -/
theorem c10_satisfies_singleton (requirements : List Requirement)
    (courseInfo : String → Option CourseRecord) (completedCourses : List String)
    (availableSemesters : List OutSem) (cap : Int) :
    ∀ p ∈ planCourseSequence requirements courseInfo completedCourses
        availableSemesters cap,
      p.satisfies.length = 1 ∧
      ∃ req ∈ requirements, p.satisfies = [req.category] ∧
        p.course_id ∈ req.courses.getD [] := by
  obtain ⟨cf, hinv⟩ := planCourseSequence_inv requirements courseInfo completedCourses
    availableSemesters cap
  intro p hp
  obtain ⟨req, hreq, hsats, hmem⟩ := hinv.2.2.2.2 p hp
  exact ⟨by rw [hsats]; rfl, req, hreq, hsats, hmem⟩

def c10requirements : List Requirement :=
  [{ category := "A", courses := some ["X", "P"] },
   { category := "B", courses := some ["X"] }]

def c10courseInfo : String → Option CourseRecord := fun courseId =>
  if courseId = "X" then
    some { course_id := "X", name := "X", credits := 3, prerequisites := ["P"], description := "" }
  else if courseId = "P" then
    some { course_id := "P", name := "P", credits := 3, prerequisites := [], description := "" }
  else none

def c10sems : List OutSem := [{ season := some "fall", year := some 2024 }]

/-- C10 counterexample: category `A` is the first in declared order that
lists course `X`, yet `X` is credited to the later category `B`: during
the same term `A`'s pass first finds `X` ineligible, then places the
prerequisite `P`, after which `B`'s pass places `X`. -/
theorem c10_counterexample :
    (planCourseSequence c10requirements c10courseInfo [] c10sems 15).map
        (fun c => (c.course_id, c.satisfies)) = [("P", ["A"]), ("X", ["B"])] ∧
    "X" ∈ (c10requirements.headD { category := "", courses := none }).courses.getD [] ∧
    (c10requirements.headD { category := "", courses := none }).category = "A" := by
  decide

/-- C10 witness: the singleton property at a concrete placed course. -/
theorem c10_satisfies_singleton_witness :
    ({ course_id := "X", name := "X", credits := 3, prerequisites := ["P"]
       satisfies := ["B"], plannedSemester := "fall 2024" } : SequencedCourse) ∈
        planCourseSequence c10requirements c10courseInfo [] c10sems 15 ∧
    (["B"] : List String).length = 1 :=
  ⟨by decide,
   ((c10_satisfies_singleton c10requirements c10courseInfo [] c10sems 15)
     { course_id := "X", name := "X", credits := 3, prerequisites := ["P"]
       satisfies := ["B"], plannedSemester := "fall 2024" } (by decide)).1⟩

/-- C4 (amended): a stub record (3 credits, no prerequisites, the course
identifier as display name) is substituted exactly when the catalog fetch
throws; a response that is not ok (or whose JSON is not a non-empty
array) produces no `courseInfo` entry at all, and a course with no
`courseInfo` entry is never placed by the greedy pass; no case aborts the
run. -/
theorem c4_resolution_behavior (oracle : String → FetchOutcome) (courseId : String) :
    (oracle courseId = FetchOutcome.netError →
      resolveEntry oracle courseId = some (stubRecord courseId)) ∧
    (oracle courseId = FetchOutcome.respNotOk →
      resolveEntry oracle courseId = none) ∧
    (∀ requirements courseInfo completedCourses availableSemesters cap,
      courseInfo courseId = none →
      ∀ p ∈ planCourseSequence requirements courseInfo completedCourses
          availableSemesters cap,
        p.course_id ≠ courseId) := by
  refine ⟨?_, ?_, ?_⟩
  · intro h; simp [resolveEntry, h]
  · intro h; simp [resolveEntry, h]
  · intro requirements courseInfo completedCourses availableSemesters cap hnone p hp heq
    obtain ⟨cf, hinv⟩ := planCourseSequence_inv requirements courseInfo completedCourses
      availableSemesters cap
    have hs := hinv.2.2.2.1 p hp
    rw [heq, hnone] at hs
    simp at hs

def c4req : GeneratePlanRequest :=
  { majors := [{ code := "M", name := "M",
                 requirements := [{ category := "core", courses := some ["CMSC999"] }] }]
    minors := [], completedCourses := []
    startingSemester := "Fall 2024", graduationTarget := "Fall 2024"
    maxCreditsPerSemester := 15 }

/-- C4 counterexample: when the catalog responds but not with success
(`response.ok` false), the required course gets no record at all — no
stub is substituted, the course is never placed, and its category is
reported unmet; this refutes the claim that *every* unresolvable
identifier receives a stub keeping it placeable. -/
theorem c4_counterexample :
    requiredCourseIdsOf c4req = ["CMSC999"] ∧
    courseInfoOf c4req (fun _ => FetchOutcome.respNotOk) = [] ∧
    courseSequenceOf c4req (fun _ => FetchOutcome.respNotOk) = [] ∧
    (generateGraduationPlan c4req (fun _ => FetchOutcome.respNotOk)).unmetRequirements =
      ["core"] := by
  decide

/-- C4 witness: the stub branch at a concrete identifier whose fetch
throws. -/
theorem c4_resolution_behavior_witness :
    (fun _ => FetchOutcome.netError) "CMSC101" = FetchOutcome.netError ∧
    resolveEntry (fun _ => FetchOutcome.netError) "CMSC101" = some (stubRecord "CMSC101") :=
  ⟨rfl, (c4_resolution_behavior (fun _ => FetchOutcome.netError) "CMSC101").1 rfl⟩

/-! ## Credit accounting within one semester -/

/-- Every proper prefix of a semester batch sums strictly below the cap:
this is exactly the guard `currentCredits >= maxCreditsPerSemester`
checked before each placement. -/
def creditsOk (cap : Int) (b : List SequencedCourse) : Prop :=
  ∀ k, k < b.length → ((b.take k).map (·.credits)).sum < cap

lemma placeCourses_batch (courseInfo : String → Option CourseRecord) (cap : Int)
    (semesterKey : String) (category : String) :
    ∀ (cs : List String) (st : PlacerState) (acc0 batch : List SequencedCourse),
      st.planned = acc0 ++ batch →
      st.credits = (batch.map (·.credits)).sum →
      creditsOk cap batch →
      (∀ p ∈ batch, p.plannedSemester = semesterKey) →
      ∃ batch',
        (placeCourses courseInfo cap semesterKey category cs st).planned = acc0 ++ batch' ∧
        (placeCourses courseInfo cap semesterKey category cs st).credits =
          (batch'.map (·.credits)).sum ∧
        creditsOk cap batch' ∧
        (∀ p ∈ batch', p.plannedSemester = semesterKey) := by
  intro cs
  induction cs with
  | nil =>
    intro st acc0 batch hp hc hok hkeys
    exact ⟨batch, by simpa [placeCourses] using hp, by simpa [placeCourses] using hc,
      hok, hkeys⟩
  | cons c rest ih =>
    intro st acc0 batch hp hc hok hkeys
    simp only [placeCourses]
    by_cases hcont : st.completed.contains c
    · rw [if_pos hcont]
      exact ih st acc0 batch hp hc hok hkeys
    · rw [if_neg hcont]
      by_cases hcap : st.credits ≥ cap
      · rw [if_pos hcap]
        exact ⟨batch, hp, hc, hok, hkeys⟩
      · rw [if_neg hcap]
        cases hci : courseInfo c with
        | none => exact ih st acc0 batch hp hc hok hkeys
        | some course =>
          dsimp only
          by_cases hpre : course.prerequisites.all (fun p => st.completed.contains p)
          · rw [if_pos hpre]
            set newp : SequencedCourse :=
              { course_id := c, name := course.name, credits := course.credits
                prerequisites := course.prerequisites, satisfies := [category]
                plannedSemester := semesterKey } with hnewp
            apply ih _ acc0 (batch ++ [newp])
            · simp only [hp, List.append_assoc]
            · simp only [hc, List.map_append, List.sum_append, List.map_cons,
                List.map_nil, List.sum_cons, List.sum_nil]
              simp [hnewp]
            · intro k hk
              simp only [List.length_append, List.length_cons, List.length_nil] at hk
              by_cases hklt : k < batch.length
              · rw [List.take_append_of_le_length (by omega)]
                exact hok k hklt
              · have hkeq : k = batch.length := by omega
                subst hkeq
                rw [List.take_append_of_le_length (le_refl _), List.take_length]
                rw [hc] at hcap
                omega
            · intro p hpmem
              rcases List.mem_append.mp hpmem with h | h
              · exact hkeys p h
              · simp only [List.mem_singleton] at h
                subst h
                rfl
          · rw [if_neg hpre]
            exact ih st acc0 batch hp hc hok hkeys

lemma placeReqs_batch (courseInfo : String → Option CourseRecord) (cap : Int)
    (semesterKey : String) :
    ∀ (rs : List Requirement) (st : PlacerState) (acc0 batch : List SequencedCourse),
      st.planned = acc0 ++ batch →
      st.credits = (batch.map (·.credits)).sum →
      creditsOk cap batch →
      (∀ p ∈ batch, p.plannedSemester = semesterKey) →
      ∃ batch',
        (placeReqs courseInfo cap semesterKey rs st).planned = acc0 ++ batch' ∧
        (placeReqs courseInfo cap semesterKey rs st).credits =
          (batch'.map (·.credits)).sum ∧
        creditsOk cap batch' ∧
        (∀ p ∈ batch', p.plannedSemester = semesterKey) := by
  intro rs
  induction rs with
  | nil =>
    intro st acc0 batch hp hc hok hkeys
    exact ⟨batch, by simpa [placeReqs] using hp, by simpa [placeReqs] using hc, hok, hkeys⟩
  | cons req rest ih =>
    intro st acc0 batch hp hc hok hkeys
    simp only [placeReqs]
    cases hcs : req.courses with
    | none => exact ih st acc0 batch hp hc hok hkeys
    | some cs =>
      dsimp only
      obtain ⟨batch', hp', hc', hok', hkeys'⟩ :=
        placeCourses_batch courseInfo cap semesterKey req.category cs st acc0 batch
          hp hc hok hkeys
      exact ih _ acc0 batch' hp' hc' hok' hkeys'

lemma planLoop_batches (requirements : List Requirement)
    (courseInfo : String → Option CourseRecord) (cap : Int) :
    ∀ (sems : List OutSem) (completed : List String) (acc : List SequencedCourse),
      ∃ batches : List (List SequencedCourse),
        planLoop requirements courseInfo cap sems completed acc =
          acc ++ batches.flatten ∧
        List.Forall₂ (fun sem b => creditsOk cap b ∧
          ∀ p ∈ b, p.plannedSemester = semKeyOf sem) sems batches := by
  intro sems
  induction sems with
  | nil =>
    intro completed acc
    exact ⟨[], by simp [planLoop], List.Forall₂.nil⟩
  | cons sem rest ih =>
    intro completed acc
    simp only [planLoop]
    obtain ⟨batch, hp, _, hok, hkeys⟩ :=
      placeReqs_batch courseInfo cap (semKeyOf sem) requirements
        { completed := completed, credits := 0, planned := acc } acc []
        (by simp) (by simp) (fun k hk => by simp at hk) (fun p hp => by simp at hp)
    obtain ⟨batches, hrest, hforall⟩ :=
      ih (placeReqs courseInfo cap (semKeyOf sem) requirements
        { completed := completed, credits := 0, planned := acc }).completed
        (placeReqs courseInfo cap (semKeyOf sem) requirements
        { completed := completed, credits := 0, planned := acc }).planned
    refine ⟨batch :: batches, ?_, List.Forall₂.cons ⟨hok, hkeys⟩ hforall⟩
    rw [hrest, hp]
    simp [List.append_assoc]

lemma mem_flatten_key (cap : Int) :
    ∀ (sems : List OutSem) (batches : List (List SequencedCourse)),
      List.Forall₂ (fun sem b => creditsOk cap b ∧
        ∀ p ∈ b, p.plannedSemester = semKeyOf sem) sems batches →
      ∀ p ∈ batches.flatten, ∃ sem ∈ sems, p.plannedSemester = semKeyOf sem := by
  intro sems batches h
  induction h with
  | nil => intro p hp; simp at hp
  | cons hhead htail ih =>
    intro p hp
    rw [List.flatten_cons, List.mem_append] at hp
    rcases hp with h | h
    · exact ⟨_, List.mem_cons_self _ _, hhead.2 p h⟩
    · obtain ⟨sem, hsem, hkey⟩ := ih p h
      exact ⟨sem, List.mem_cons_of_mem _ hsem, hkey⟩

lemma filter_flatten_eq (cap : Int) :
    ∀ (sems : List OutSem) (batches : List (List SequencedCourse)) (sem : OutSem),
      List.Forall₂ (fun sem b => creditsOk cap b ∧
        ∀ p ∈ b, p.plannedSemester = semKeyOf sem) sems batches →
      ((sems.map semKeyOf).Nodup) → sem ∈ sems →
      ∃ b, batches.flatten.filter (fun p => p.plannedSemester == semKeyOf sem) = b ∧
        creditsOk cap b := by
  intro sems batches sem h
  induction h with
  | nil => intro _ hmem; simp at hmem
  | @cons s0 b0 sems' batches' hhead htail ih =>
    intro hnd hmem
    rw [List.map_cons, List.nodup_cons] at hnd
    rw [List.flatten_cons, List.filter_append]
    rcases List.mem_cons.mp hmem with rfl | hmem'
    · refine ⟨b0, ?_, hhead.1⟩
      have h1 : b0.filter (fun p => p.plannedSemester == semKeyOf sem) = b0 :=
        List.filter_eq_self.mpr (fun p hp => by
          rw [hhead.2 p hp]
          exact beq_self_eq_true _)
      have h2 : batches'.flatten.filter (fun p => p.plannedSemester == semKeyOf sem) = [] :=
        List.filter_eq_nil_iff.mpr (fun p hp => by
          obtain ⟨sem', hsem', hkey⟩ := mem_flatten_key cap sems' batches' htail p hp
          rw [hkey]
          simp only [beq_iff_eq]
          intro hcontra
          exact hnd.1 (hcontra ▸ List.mem_map_of_mem semKeyOf hsem')
        )
      rw [h1, h2, List.append_nil]
    · have h1 : b0.filter (fun p => p.plannedSemester == semKeyOf sem) = [] :=
        List.filter_eq_nil_iff.mpr (fun p hp => by
          rw [hhead.2 p hp]
          simp only [beq_iff_eq]
          intro hcontra
          exact hnd.1 (hcontra ▸ List.mem_map_of_mem semKeyOf hmem')
        )
      obtain ⟨b, hb, hok⟩ := ih hnd.2 hmem'
      exact ⟨b, by rw [h1, hb, List.nil_append], hok⟩

/-- C2 (amended): in the generated plan, the running credit total checked
*before* each placement is strictly below `maxCreditsPerSemester`: every
proper prefix of a term's course list sums strictly below the cap (the
full term total may exceed the cap by part of the last placed course's
credits).  The hypothesis that the available semesters have pairwise
distinct keys always holds for sequencer output, whose terms strictly
increase. -/
theorem c2_prefix_below_cap (r : GeneratePlanRequest) (oracle : String → FetchOutcome)
    (hkeys : ((availableSemestersOf r).map semKeyOf).Nodup) :
    ∀ sp ∈ (generateGraduationPlan r oracle).semesters,
      ∀ k, k < sp.courses.length →
        ((sp.courses.take k).map (·.credits)).sum < r.maxCreditsPerSemester := by
  intro sp hsp k hk
  simp only [generateGraduationPlan] at hsp
  have hsp2 := (List.mem_filter.mp hsp).1
  simp only [setSemesterTotals, List.mem_map] at hsp2
  obtain ⟨sp0, hsp0, rfl⟩ := hsp2
  simp only [buildSemesterPlans, List.mem_map] at hsp0
  obtain ⟨sem, hsem, rfl⟩ := hsp0
  obtain ⟨batches, hflat, hforall⟩ :=
    planLoop_batches (remainingRequirementsOf r)
      (fun courseId => (courseInfoOf r oracle).lookup courseId)
      r.maxCreditsPerSemester (availableSemestersOf r)
      (r.completedCourses.map (·.course_id)) []
  have hseq : courseSequenceOf r oracle = batches.flatten := by
    rw [courseSequenceOf, planCourseSequence, hflat, List.nil_append]
  obtain ⟨b, hb, hok⟩ := filter_flatten_eq r.maxCreditsPerSemester
    (availableSemestersOf r) batches sem hforall hkeys hsem
  rw [← hseq] at hb
  dsimp only at hk ⊢
  rw [hb] at hk ⊢
  rw [List.length_map] at hk
  rw [← List.map_take, List.map_map]
  refine lt_of_eq_of_lt ?_ (hok k hk)
  congr 1

def c2req : GeneratePlanRequest :=
  { majors := [{ code := "E", name := "E",
                 requirements := [{ category := "core", courses := some ["E1", "E2", "E3", "E4"] }] }]
    minors := [], completedCourses := []
    startingSemester := "Fall 2024", graduationTarget := "Fall 2024"
    maxCreditsPerSemester := 15 }

def c2oracle : String → FetchOutcome := fun _ =>
  FetchOutcome.okJson
    (some [{ name := some "Course", credits := some "4", relPrereqs := some "", description := none }])

/-- C2 counterexample: with cap 15 and four 4-credit courses, the guard
`currentCredits >= maxCreditsPerSemester` passes at 12 and the fourth
course is placed, so the term total is 16 > 15 — the per-term sum *can*
exceed `maxCreditsPerSemester`. -/
theorem c2_counterexample :
    (generateGraduationPlan c2req c2oracle).semesters.map (·.totalCredits) = [16] ∧
    c2req.maxCreditsPerSemester = 15 := by
  decide

def c2wreq : GeneratePlanRequest :=
  { majors := [{ code := "E", name := "E",
                 requirements := [{ category := "core", courses := some ["E1"] }] }]
    minors := [], completedCourses := []
    startingSemester := "Fall 2024", graduationTarget := "Fall 2024"
    maxCreditsPerSemester := 15 }

def c2woracle : String → FetchOutcome := fun _ =>
  FetchOutcome.okJson
    (some [{ name := some "Course E1", credits := some "3", relPrereqs := some "", description := none }])

/-- C2 witness: the prefix-sum bound applied on a concrete request. -/
theorem c2_prefix_below_cap_witness :
    ((availableSemestersOf c2wreq).map semKeyOf).Nodup ∧
    ({ semester := some "fall", year := some 2024
       courses := [{ course_id := "E1", name := "Course E1", credits := 3
                     prerequisites := [], satisfies := ["core"] }]
       totalCredits := 3 } : SemesterPlan) ∈
      (generateGraduationPlan c2wreq c2woracle).semesters ∧
    (0 : Nat) < 1 ∧
    ((([] : List PlannedCourse)).map (·.credits)).sum < c2wreq.maxCreditsPerSemester := by
  refine ⟨by decide, by decide, by decide, ?_⟩
  have h := c2_prefix_below_cap c2wreq c2woracle (by decide)
    { semester := some "fall", year := some 2024
      courses := [{ course_id := "E1", name := "Course E1", credits := 3
                    prerequisites := [], satisfies := ["core"] }]
      totalCredits := 3 } (by decide) 0 (by decide)
  simpa using h

/-! ## Remaining claims -/

def c1req : GeneratePlanRequest :=
  { majors := [{ code := "CS", name := "Computer Science",
                 requirements := [{ category := "core", courses := some ["MATH140", "MATH141"] }] }]
    minors := [], completedCourses := []
    startingSemester := "Fall 2024", graduationTarget := "Fall 2025"
    maxCreditsPerSemester := 15 }

def c1oracle : String → FetchOutcome := fun courseId =>
  if courseId = "MATH140" then
    FetchOutcome.okJson
      (some [{ name := some "Calculus I", credits := some "4", relPrereqs := some "", description := none }])
  else if courseId = "MATH141" then
    FetchOutcome.okJson
      (some [{ name := some "Calculus II", credits := some "4", relPrereqs := some "MATH140", description := none }])
  else FetchOutcome.netError

/-- C1: on the spec's own scenario (core = [MATH140, MATH141], MATH141's
prerequisite is MATH140, start fall 2024, cap 15) the engine places
MATH141 *in the same term* as its prerequisite MATH140: `completed` is
grown at the moment of placement, not after the term is processed, so a
course and its just-placed prerequisite share fall 2024 — the claimed
strictly-earlier-term invariant fails. -/
theorem c1_same_term_placement :
    ((courseInfoOf c1req c1oracle).lookup "MATH141").map (·.prerequisites) =
      some ["MATH140"] ∧
    (courseSequenceOf c1req c1oracle).map (fun c => (c.course_id, c.plannedSemester)) =
      [("MATH140", "fall 2024"), ("MATH141", "fall 2024")] ∧
    (generateGraduationPlan c1req c1oracle).semesters.map
        (fun sp => (sp.semester, sp.year, sp.courses.map (·.course_id))) =
      [(some "fall", some 2024, ["MATH140", "MATH141"])] := by
  decide

/-- C3 (amended): a label is listed in `unmetRequirements` exactly when
some requirement category bearing that label (with a present course
list) has none of its courses among the *placed* courses — the initially
completed courses are not consulted, so a category fully satisfied by
completed coursework is also listed. -/
theorem c3_unmet_characterization (allRequirements : List Requirement)
    (plannedCourses : List SequencedCourse) (label : String) :
    label ∈ findUnmetRequirements allRequirements plannedCourses ↔
      ∃ req ∈ allRequirements, ∃ cs, req.courses = some cs ∧ req.category = label ∧
        ∀ c ∈ cs, c ∉ plannedCourses.map (·.course_id) := by
  unfold findUnmetRequirements
  rw [List.mem_filterMap]
  constructor
  · rintro ⟨req, hreq, hmap⟩
    cases hcs : req.courses with
    | none => rw [hcs] at hmap; simp at hmap
    | some cs =>
      rw [hcs] at hmap
      dsimp only at hmap
      by_cases hany : cs.any (fun c => (plannedCourses.map (·.course_id)).contains c)
      · rw [if_pos hany] at hmap
        simp at hmap
      · rw [if_neg hany] at hmap
        simp only [Option.some.injEq] at hmap
        refine ⟨req, hreq, cs, hcs, hmap, ?_⟩
        intro c hc hmem
        apply hany
        rw [List.any_eq_true]
        exact ⟨c, hc, List.elem_iff.mpr hmem⟩
  · rintro ⟨req, hreq, cs, hcs, hlabel, hnone⟩
    refine ⟨req, hreq, ?_⟩
    rw [hcs]
    dsimp only
    rw [if_neg, hlabel]
    intro hany
    rw [List.any_eq_true] at hany
    obtain ⟨c, hc, hcontains⟩ := hany
    exact hnone c hc (List.elem_iff.mp hcontains)

def c3req : GeneratePlanRequest :=
  { majors := [{ code := "M", name := "M",
                 requirements := [{ category := "core", courses := some ["MATH140"] }] }]
    minors := [], completedCourses := [{ course_id := "MATH140", credits := 4 }]
    startingSemester := "Fall 2024", graduationTarget := "Fall 2024"
    maxCreditsPerSemester := 15 }

/-- C3 counterexample: the sole category is fully covered by the initial
completed coursework (so nothing from it is placed), yet its label *is*
listed in `unmetRequirements` — refuting the claim that a category whose
courses appear among the initially completed courses is not listed. -/
theorem c3_counterexample :
    (generateGraduationPlan c3req (fun _ => FetchOutcome.netError)).unmetRequirements =
      ["core"] ∧
    "MATH140" ∈ c3req.completedCourses.map (·.course_id) ∧
    "MATH140" ∈ ((allRequirementsOf c3req).headD
      { category := "", courses := none }).courses.getD [] := by
  decide

/-- C3 witness: the characterization applied at a concrete input. -/
theorem c3_unmet_characterization_witness :
    "core" ∈ findUnmetRequirements [{ category := "core", courses := some ["X"] }] [] :=
  (c3_unmet_characterization [{ category := "core", courses := some ["X"] }] [] "core").mpr
    ⟨{ category := "core", courses := some ["X"] }, by decide, ["X"], rfl, rfl, by decide⟩

lemma placeCourses_capped (courseInfo : String → Option CourseRecord) (cap : Int)
    (semesterKey : String) (category : String) :
    ∀ (cs : List String) (st : PlacerState), cap ≤ st.credits →
      placeCourses courseInfo cap semesterKey category cs st = st := by
  intro cs
  induction cs with
  | nil => intro st _; rfl
  | cons c rest ih =>
    intro st hcap
    simp only [placeCourses]
    by_cases hcont : st.completed.contains c
    · rw [if_pos hcont]
      exact ih st hcap
    · rw [if_neg hcont, if_pos (show st.credits ≥ cap from hcap)]

lemma placeReqs_capped (courseInfo : String → Option CourseRecord) (cap : Int)
    (semesterKey : String) :
    ∀ (rs : List Requirement) (st : PlacerState), cap ≤ st.credits →
      placeReqs courseInfo cap semesterKey rs st = st := by
  intro rs
  induction rs with
  | nil => intro st _; rfl
  | cons req rest ih =>
    intro st hcap
    simp only [placeReqs]
    cases hcs : req.courses with
    | none => exact ih st hcap
    | some cs =>
      dsimp only
      rw [placeCourses_capped courseInfo cap semesterKey req.category cs st hcap]
      exact ih st hcap

lemma planLoop_capped (requirements : List Requirement)
    (courseInfo : String → Option CourseRecord) (cap : Int) (hcap : cap ≤ 0) :
    ∀ (sems : List OutSem) (completed : List String) (acc : List SequencedCourse),
      planLoop requirements courseInfo cap sems completed acc = acc := by
  intro sems
  induction sems with
  | nil => intro completed acc; rfl
  | cons sem rest ih =>
    intro completed acc
    simp only [planLoop]
    rw [placeReqs_capped courseInfo cap (semKeyOf sem) requirements
      { completed := completed, credits := 0, planned := acc } hcap]
    exact ih completed acc

/-- C5 (amended): the only caller-visible validation failure is the
empty/missing majors list.  A malformed term value, a non-positive
credit cap, and a target term preceding the starting term are *not*
rejected: generation proceeds and succeeds — a preceding target yields
an empty semester sequence, a non-positive cap yields no placements, and
no `RangeError` (or any other error) is raised. -/
theorem c5_validation_behavior :
    (∀ (r : GeneratePlanRequest) (oracle : String → FetchOutcome),
      r.majors = [] →
      handlerModel r oracle = Except.error "At least one major is required") ∧
    (∀ (r : GeneratePlanRequest) (oracle : String → FetchOutcome),
      r.majors ≠ [] →
      handlerModel r oracle = Except.ok (generateGraduationPlan r oracle)) ∧
    (∀ (start target : ParsedSem) (sy ty : Int),
      start.year = some sy → target.year = some ty →
      (ty < sy ∨ (ty = sy ∧ jsIndexOf target.season < jsIndexOf start.season)) →
      generateSemesterSequence start target = []) ∧
    (∀ (requirements : List Requirement) (courseInfo : String → Option CourseRecord)
        (completedCourses : List String) (availableSemesters : List OutSem) (cap : Int),
      cap ≤ 0 →
      planCourseSequence requirements courseInfo completedCourses availableSemesters cap =
        []) := by
  refine ⟨?_, ?_, ?_, ?_⟩
  · intro r oracle h
    rw [handlerModel, if_pos h]
  · intro r oracle h
    rw [handlerModel, if_neg h]
  · intro start target sy ty hsy hty horder
    unfold generateSemesterSequence semFuel
    rw [hsy, hty]
    have hfalse : (jsLtOpt (some sy) (some ty) ||
        (jsEqOpt (some sy) (some ty) &&
          decide (jsIndexOf start.season ≤ jsIndexOf target.season))) = false := by
      simp only [jsLtOpt, jsEqOpt, Bool.or_eq_false_iff, Bool.and_eq_false_iff,
        decide_eq_false_iff_not]
      omega
    simp only [semGo, hfalse]
    rfl
  · intro requirements courseInfo completedCourses availableSemesters cap hcap
    exact planLoop_capped requirements courseInfo cap hcap availableSemesters
      completedCourses []

def c5reqPrecede : GeneratePlanRequest :=
  { majors := [{ code := "M", name := "M",
                 requirements := [{ category := "core", courses := some ["MATH140"] }] }]
    minors := [], completedCourses := []
    startingSemester := "Fall 2024", graduationTarget := "Spring 2024"
    maxCreditsPerSemester := 15 }

def c5reqZeroCap : GeneratePlanRequest :=
  { majors := [{ code := "M", name := "M",
                 requirements := [{ category := "core", courses := some ["MATH140"] }] }]
    minors := [], completedCourses := []
    startingSemester := "Fall 2024", graduationTarget := "Fall 2024"
    maxCreditsPerSemester := 0 }

def c5reqBadSeason : GeneratePlanRequest :=
  { majors := [{ code := "M", name := "M",
                 requirements := [{ category := "core", courses := some ["MATH140"] }] }]
    minors := [], completedCourses := []
    startingSemester := "Winter 2024", graduationTarget := "Fall 2024"
    maxCreditsPerSemester := 15 }

/-- C5 counterexample: a target preceding the start, a zero credit cap,
and a malformed season each pass validation and produce a successful
(degenerate) plan — no `RangeError`, no caller-visible validation
failure.  With the malformed season `"Winter 2024"`, `indexOf` is -1 and
the run even places a course into the garbage term `undefined 2024`. -/
theorem c5_counterexample :
    (handlerModel c5reqPrecede (fun _ => FetchOutcome.netError)).toOption =
      some (generateGraduationPlan c5reqPrecede (fun _ => FetchOutcome.netError)) ∧
    availableSemestersOf c5reqPrecede = [] ∧
    (generateGraduationPlan c5reqPrecede (fun _ => FetchOutcome.netError)).semesters = [] ∧
    (handlerModel c5reqZeroCap (fun _ => FetchOutcome.netError)).toOption =
      some (generateGraduationPlan c5reqZeroCap (fun _ => FetchOutcome.netError)) ∧
    (generateGraduationPlan c5reqZeroCap (fun _ => FetchOutcome.netError)).semesters = [] ∧
    (handlerModel c5reqBadSeason (fun _ => FetchOutcome.netError)).toOption =
      some (generateGraduationPlan c5reqBadSeason (fun _ => FetchOutcome.netError)) ∧
    (generateGraduationPlan c5reqBadSeason (fun _ => FetchOutcome.netError)).semesters.map
        (fun sp => (sp.semester, sp.year, sp.courses.map (·.course_id))) =
      [(none, some 2024, ["MATH140"])] := by
  decide

/-- C5 witness: the amended behaviour applied at concrete inputs. -/
theorem c5_validation_behavior_witness :
    ({ majors := [], minors := [], completedCourses := [], startingSemester := "Fall 2024"
       graduationTarget := "Fall 2024", maxCreditsPerSemester := 15 } :
        GeneratePlanRequest).majors = [] ∧
    handlerModel
      { majors := [], minors := [], completedCourses := [], startingSemester := "Fall 2024"
        graduationTarget := "Fall 2024", maxCreditsPerSemester := 15 }
      (fun _ => FetchOutcome.netError) =
      Except.error "At least one major is required" ∧
    generateSemesterSequence { season := "fall", year := some 2024 }
      { season := "spring", year := some 2024 } = [] ∧
    planCourseSequence [] (fun _ => none) [] [] 0 = [] :=
  ⟨rfl,
   c5_validation_behavior.1 _ (fun _ => FetchOutcome.netError) rfl,
   c5_validation_behavior.2.2.1 { season := "fall", year := some 2024 }
     { season := "spring", year := some 2024 } 2024 2024 rfl rfl (by decide),
   c5_validation_behavior.2.2.2 [] (fun _ => none) [] [] 0 (by decide)⟩

/-- C7 (amended): requirement categories sharing a label are *not*
independent: when the completed coursework fully satisfies one category
(non-empty course list, all completed), every category bearing the same
label — including an unsatisfied twin — is filtered out before
placement. -/
theorem c7_label_filtering (allRequirements : List Requirement)
    (completedCourses : List CompletedCourse) (r1 r2 : Requirement)
    (h1 : r1 ∈ allRequirements) (hlabel : r1.category = r2.category)
    (cs : List String) (hcs : r1.courses = some cs) (hne : cs ≠ [])
    (hall : ∀ c ∈ cs, c ∈ completedCourses.map (·.course_id)) :
    r2 ∉ remainingRequirements allRequirements completedCourses := by
  intro hmem
  unfold remainingRequirements at hmem
  rw [List.mem_filter] at hmem
  have hsat : r1.category ∈ checkSatisfiedRequirements allRequirements completedCourses := by
    unfold checkSatisfiedRequirements
    rw [List.mem_filterMap]
    refine ⟨r1, h1, ?_⟩
    rw [hcs]
    simp only [Option.getD_some]
    rw [if_pos]
    exact ⟨List.all_eq_true.mpr (fun c hc => List.elem_iff.mpr (hall c hc)), hne⟩
  have hpred := hmem.2
  rw [← hlabel] at hpred
  simp only [Bool.not_eq_true'] at hpred
  exact absurd (List.elem_iff.mpr hsat)
    (by simp only [hpred]; exact fun h => Bool.false_ne_true h)

def c7reqs : List Requirement :=
  [{ category := "core", courses := some ["A"] },
   { category := "core", courses := some ["B"] }]

def c7completed : List CompletedCourse := [{ course_id := "A", credits := 3 }]

/-- C7 counterexample: two distinct categories share the label `core`;
the completed coursework satisfies the first but not the second, yet
*both* are filtered out — the unsatisfied twin does not participate in
placement, refuting label-independence. -/
theorem c7_counterexample :
    remainingRequirements c7reqs c7completed = [] ∧
    ({ category := "core", courses := some ["B"] } : Requirement) ∈ c7reqs ∧
    "B" ∉ c7completed.map (·.course_id) := by
  decide

/-- C7 witness: the label-based filtering applied at a concrete input. -/
theorem c7_label_filtering_witness :
    ({ category := "core", courses := some ["A"] } : Requirement) ∈ c7reqs ∧
    ("A" : String) ∈ c7completed.map (·.course_id) ∧
    ({ category := "core", courses := some ["B"] } : Requirement) ∉
      remainingRequirements c7reqs c7completed :=
  ⟨by decide, by decide,
   c7_label_filtering c7reqs c7completed
     { category := "core", courses := some ["A"] }
     { category := "core", courses := some ["B"] }
     (by decide) rfl ["A"] rfl (by decide) (by decide)⟩

lemma setSemesterTotals_zero (semesters : List SemesterPlan) :
    ∀ sp ∈ setSemesterTotals semesters, sp.courses = [] → sp.totalCredits = 0 := by
  intro sp hsp hc
  unfold setSemesterTotals at hsp
  rw [List.mem_map] at hsp
  obtain ⟨x, hx, rfl⟩ := hsp
  dsimp only at hc ⊢
  rw [hc]
  rfl

lemma sum_totalCredits_filter (l : List SemesterPlan)
    (hzero : ∀ sp ∈ l, sp.courses = [] → sp.totalCredits = 0) :
    ((l.filter (fun sp => decide (0 < sp.courses.length))).map (·.totalCredits)).sum =
      (l.map (·.totalCredits)).sum := by
  induction l with
  | nil => rfl
  | cons sp rest ih =>
    simp only [List.filter_cons]
    by_cases h : 0 < sp.courses.length
    · rw [if_pos (by simpa using h)]
      simp only [List.map_cons, List.sum_cons]
      rw [ih (fun x hx => hzero x (List.mem_cons_of_mem _ hx))]
    · rw [if_neg (by simpa using h)]
      simp only [List.map_cons, List.sum_cons]
      rw [ih (fun x hx => hzero x (List.mem_cons_of_mem _ hx))]
      have hnil : sp.courses = [] := List.eq_nil_of_length_eq_zero (by omega)
      rw [hzero sp (List.mem_cons_self _ _) hnil]
      omega

/-- C8: the returned plan's `totalCredits` equals the sum of the
returned `SemesterPlan` credit totals plus the sum of the credits of the
initially completed courses (the semesters dropped from the output are
exactly those with no courses, whose totals are 0). -/
theorem c8_total_credits (r : GeneratePlanRequest) (oracle : String → FetchOutcome) :
    (generateGraduationPlan r oracle).totalCredits =
      (((generateGraduationPlan r oracle).semesters).map (·.totalCredits)).sum +
      ((r.completedCourses).map (·.credits)).sum := by
  simp only [generateGraduationPlan]
  congr 1
  exact (sum_totalCredits_filter _
    (setSemesterTotals_zero (buildSemesterPlans (availableSemestersOf r)
      (courseSequenceOf r oracle)))).symm
